import Mathlib

/-!
Verification of the metrics-bench repository: a shallow embedding of
`metrics-gen/metrics_gen.py` and `bench/query_bench.py` in Lean 4, together
with theorems settling the documented behavioural claims.

Modelling conventions:
* Python floats are modelled as `ℚ` (the numeric claims are algebraic and
  exact: `0.05 = 5/100`, `0.95 = 19/20`).
* `random.uniform(-10, 10)` draws are modelled as an explicit noise oracle
  `Nat → ℚ` (one draw per generated label set, in generation order).
* HTTP calls are modelled by an outcome oracle: a call either raises
  (`HttpOutcome.exn`, a `requests` network-level exception) or returns a
  response with a status code, a body and an elapsed wall-clock time.
* Python exceptions escaping a function are modelled with `Except`/`Option`.
-/

namespace MetricsBench

/-! ## metrics_gen.py — configuration and label-space enumeration -/

/-- Environment configuration of the generator
(`NUM_INSTANCES`, `NUM_STATUS_CODES`, `NUM_METHODS`). -/
structure GenConfig where
  numInstances : Nat
  numStatusCodes : Nat
  numMethods : Nat

/-- The hardcoded status-code list `["200", "500", "400", "404", "502"]`. -/
def statusCodesAll : List String := ["200", "500", "400", "404", "502"]

/-- The hardcoded method list `["GET", "POST"]`. -/
def methodsAll : List String := ["GET", "POST"]

/-- `STATUS_CODES = [...][:NUM_STATUS_CODES]` (Python slicing truncates). -/
def STATUS_CODES (cfg : GenConfig) : List String :=
  statusCodesAll.take cfg.numStatusCodes

/-- `METHODS = ["GET", "POST"][:NUM_METHODS]`. -/
def METHODS (cfg : GenConfig) : List String :=
  methodsAll.take cfg.numMethods

/-- Decimal digits of `n`, most significant first (`digitChars 0 = []`,
matching the significant digits used by Python's decimal formatting). -/
def digitChars (n : Nat) : List Char :=
  ((Nat.digits 10 n).map Nat.digitChar).reverse

/-- Left-pad with `'0'` to width 5, the padding performed by `f"{i:05d}"`. -/
def pad5 (cs : List Char) : List Char :=
  List.replicate (5 - cs.length) '0' ++ cs

/-- The instance label `f"inst-{i:05d}"`. -/
def instName (i : Nat) : String :=
  "inst-" ++ String.mk (pad5 (digitChars i))

/-- One label set `{"job": ..., "instance": ..., "status_code": ..., "method": ...}`
yielded by `generate_series`. -/
structure Labels where
  job : String
  instanceLabel : String
  status_code : String
  method : String
deriving DecidableEq, Repr

/-- `generate_series()`: the triple-nested enumeration over instances,
`STATUS_CODES` and `METHODS` (the generator materialised as a list, in
yield order). It takes no random input: the label-set membership is a pure
function of the configuration. -/
def generate_series (cfg : GenConfig) : List Labels :=
  (List.range cfg.numInstances).flatMap fun i =>
    (STATUS_CODES cfg).flatMap fun sc =>
      (METHODS cfg).map fun m =>
        { job := "demo", instanceLabel := instName i, status_code := sc, method := m }

/-! ## metrics_gen.py — per-tick value and bulk payload -/

/-- The inline value computation of `build_bulk_payload`:
`value = max(0.0, base * factor + noise)` with `base = 100.0` and
`factor = 1.0 if status_code == "200" else 0.05`. -/
def computeValue (status_code : String) (noise : ℚ) : ℚ :=
  max 0 (100 * (if status_code = "200" then 1 else 5 / 100) + noise)

/-- One line of the NDJSON bulk body: either the action header
`{"create": {}}` or a document (its fields in `json.dumps` key order). -/
inductive BulkLine where
  | action : BulkLine
  | doc (timestamp : String) (value : ℚ)
      (job instanceLabel status_code method : String) : BulkLine
deriving DecidableEq, Repr

/-- The loop body of `build_bulk_payload`: for each label set (k-th in
generation order, receiving the k-th noise draw) append the
action/document pair to `lines` and record the `http_qps.labels(...).set(value)`
gauge update. Returns (lines, gauge updates in call order). -/
def bulkStep (ts : String) (noise : Nat → ℚ) :
    List Labels → Nat → List BulkLine × List (Labels × ℚ)
  | [], _ => ([], [])
  | l :: rest, k =>
    let value := computeValue l.status_code (noise k)
    let recur := bulkStep ts noise rest (k + 1)
    (BulkLine.action ::
       BulkLine.doc ts value l.job l.instanceLabel l.status_code l.method :: recur.1,
     (l, value) :: recur.2)

/-- `build_bulk_payload(timestamp_iso)`: sweep `generate_series()`, producing
the `lines` list and the sequence of Prometheus gauge updates. -/
def build_bulk_payload (cfg : GenConfig) (noise : Nat → ℚ) (ts : String) :
    List BulkLine × List (Labels × ℚ) :=
  bulkStep ts noise (generate_series cfg) 0

/-! ## metrics_gen.py — NDJSON serialisation of the bulk body

`json.dumps` is modelled field-for-field: objects render their keys in
insertion order with the default `", "` / `": "` separators, and strings are
escaped (`\"`, `\\`, control characters). Python's `repr` of a float is kept
abstract as a parameter `numRepr : ℚ → String`. -/

/-- JSON string escaping of one character (the escapes `json.dumps` emits
for the default `ensure_ascii` handling of ASCII input). -/
def escChar (c : Char) : List Char :=
  if c = '"' then ['\\', '"']
  else if c = '\\' then ['\\', '\\']
  else if c = '\n' then ['\\', 'n']
  else if c = '\r' then ['\\', 'r']
  else if c = '\t' then ['\\', 't']
  else if c.toNat < 32 then
    ['\\', 'u', '0', '0', Nat.digitChar (c.toNat / 16), Nat.digitChar (c.toNat % 16)]
  else [c]

/-- A JSON string literal: `"` + escaped characters + `"`. -/
def jsonString (s : String) : String :=
  String.mk ('"' :: (s.data.flatMap escChar ++ ['"']))

/-- `str.join` of Python, used both for `", ".join`-style separators inside
`json.dumps` and for `"\n".join(lines)`. -/
def joinSep (sep : String) : List String → String
  | [] => ""
  | [x] => x
  | x :: rest => x ++ sep ++ joinSep sep (rest)

/-- A JSON object over pre-rendered field values, keys in insertion order,
with `json.dumps`'s default separators. -/
def jsonObj (fields : List (String × String)) : String :=
  String.mk ['{'] ++
    joinSep ", " (fields.map fun f => jsonString f.1 ++ ": " ++ f.2) ++
  String.mk ['}']

/-- `json.dumps` of one bulk line: the action header `{"create": {}}` or the
document with its six fields in insertion order. -/
def serializeLine (numRepr : ℚ → String) : BulkLine → String
  | BulkLine.action => jsonObj [("create", jsonObj [])]
  | BulkLine.doc ts v job inst sc m =>
    jsonObj
      [("@timestamp", jsonString ts), ("http_requests_qps", numRepr v),
       ("job", jsonString job), ("instance", jsonString inst),
       ("status_code", jsonString sc), ("method", jsonString m)]

/-- The returned bulk body: `"\n".join(lines) + "\n"`. -/
def bulkBody (cfg : GenConfig) (noise : Nat → ℚ) (ts : String)
    (numRepr : ℚ → String) : String :=
  joinSep "\n" ((build_bulk_payload cfg noise ts).1.map (serializeLine numRepr)) ++ "\n"

/-! ## metrics_gen.py — schema-setup retry phase of `ingest_loop`

`ingest_loop` (after `wait_for_elasticsearch` succeeded) runs
`for attempt in range(3)`: call `ensure_index()`; on success break; on
failure sleep 2 seconds unless it was the last attempt, which instead prints
the degraded-mode warning.  In every case it then falls through into the
infinite ingestion loop.  The outcome of each `ensure_index()` call is an
oracle `Nat → Bool` indexed by attempt number. -/

/-- Observable events of the setup phase. -/
inductive SetupEvent where
  | attempt (i : Nat) : SetupEvent
  | sleep (seconds : ℚ) : SetupEvent
  | warnDegraded : SetupEvent
  | enterIngestLoop : SetupEvent
deriving DecidableEq, Repr

/-- The retry `for` loop, `rem` attempts remaining, current attempt index `i`. -/
def setupGo (r : Nat → Bool) : Nat → Nat → List SetupEvent
  | _, 0 => []
  | i, rem + 1 =>
    SetupEvent.attempt i ::
      (if r i then []
       else if rem = 0 then [SetupEvent.warnDegraded]
       else SetupEvent.sleep 2 :: setupGo r (i + 1) rem)

/-- The whole setup phase: `max_retries = 3` attempts, then (unconditionally)
entry into the ingestion loop. -/
def setupPhase (r : Nat → Bool) : List SetupEvent :=
  setupGo r 0 3 ++ [SetupEvent.enterIngestLoop]

/-! ## query_bench.py — query catalogue and benchmark loops -/

/-- One entry of the `QUERIES` catalogue.  A missing `"skip"` key is a falsy
`q.get("skip")`, modelled as `skip := false`; missing `"range_duration"` /
`"step"` keys are `none`. -/
structure Query where
  name : String
  skip : Bool
  promql : String
  esql : String
  range_duration : Option String
  step : Option String
deriving DecidableEq, Repr

/-- `NUM_RUNS = 5`. -/
def NUM_RUNS : Nat := 5

/-- The two backends queried by the benchmark. -/
inductive Backend where
  | prom : Backend
  | es : Backend
deriving DecidableEq, Repr

/-- Outcome of one HTTP call: either `requests` raised (connection error /
timeout — there is no `try`/`except` around the benchmark calls) or a
response arrived with a status code, a body and an elapsed time (ms). -/
inductive HttpOutcome where
  | exn : HttpOutcome
  | resp (status : Nat) (body : String) (elapsed : ℚ) : HttpOutcome

/-- Observable events of the benchmark main loop. -/
inductive Event where
  | announce (name : String) : Event
  | skippedNote (name : String) : Event
  | call (backend : Backend) (run : Nat) (timeout : Nat) : Event
  | summary (backend : Backend) (p50 p95 : ℚ) : Event
deriving DecidableEq, Repr

/-- Timeout chosen by `bench_prom`: 120 if both `range_duration` and `step`
are present (`use_range`), else 15. -/
def promTimeout (q : Query) : Nat :=
  if q.range_duration.isSome && q.step.isSome then 120 else 15

/-- Timeout chosen by `bench_esql`: 120 if `range_duration` is present, else 15. -/
def esqlTimeout (q : Query) : Nat :=
  if q.range_duration.isSome then 120 else 15

/-- The shared shape of the `for i in range(NUM_RUNS)` loops of `bench_prom`
and `bench_esql` (they differ only in the URL and parameters of the issued
call, which do not influence the recorded latencies): issue the call; if it
raised, the exception propagates (the latencies gathered so far are lost);
otherwise append the elapsed time to `latencies` unconditionally, and retain
the body as `first_result` only for run 0 with status 200.  Also returns the
list of attempted calls. -/
def benchGo (b : Backend) (timeout : Nat) (oracle : Nat → HttpOutcome) :
    Nat → Nat → List ℚ → Option String →
    List Event × Except Unit (List ℚ × Option String)
  | _, 0, lats, fr => ([], Except.ok (lats, fr))
  | i, rem + 1, lats, fr =>
    match oracle i with
    | HttpOutcome.exn => ([Event.call b i timeout], Except.error ())
    | HttpOutcome.resp st body elapsed =>
      let fr' := if i = 0 && st = 200 then some body else fr
      let recur := benchGo b timeout oracle (i + 1) rem (lats ++ [elapsed]) fr'
      (Event.call b i timeout :: recur.1, recur.2)

/-- `bench_prom(query)`. -/
def bench_prom (oracle : Nat → HttpOutcome) (q : Query) :
    List Event × Except Unit (List ℚ × Option String) :=
  benchGo Backend.prom (promTimeout q) oracle 0 NUM_RUNS [] none

/-- `bench_esql(query)`. -/
def bench_esql (oracle : Nat → HttpOutcome) (q : Query) :
    List Event × Except Unit (List ℚ × Option String) :=
  benchGo Backend.es (esqlTimeout q) oracle 0 NUM_RUNS [] none

/-! ## query_bench.py — duration parsing -/

/-- Digit value of an ASCII digit character. -/
def charToDigitVal (c : Char) : Nat := c.toNat - 48

/-- Decimal value of a digit string, most significant first. -/
def pyIntDigits (ds : List Char) : Nat :=
  ds.foldl (fun acc c => 10 * acc + charToDigitVal c) 0

/-- Python `int(s)` on a decimal literal (optional leading `-`, then at
least one digit); anything else raises `ValueError`, modelled as `none`. -/
def pyInt (cs : List Char) : Option Int :=
  if cs.head? = some '-' then
    if cs.tail ≠ [] ∧ cs.tail.all Char.isDigit then
      some (-(pyIntDigits cs.tail : Int))
    else none
  else if cs ≠ [] ∧ cs.all Char.isDigit then some ((pyIntDigits cs : Int))
  else none

/-- The `units` dict lookup `units.get(unit, 1)` with
`units = {"s": 1, "m": 60, "h": 3600, "d": 86400}`. -/
def unitsGet (c : Char) : Nat :=
  if c = 's' then 1
  else if c = 'm' then 60
  else if c = 'h' then 3600
  else if c = 'd' then 86400
  else 1

/-- `parse_duration(duration_str)`: if the last character is a digit, the
whole string through `int()`; otherwise `int(duration_str[:-1])` times the
unit multiplier of the lower-cased last character (unknown units default
to 1).  `duration_str[-1]` on an empty string raises, modelled as `none`. -/
def parse_duration (s : String) : Option Int :=
  match s.data.getLast? with
  | none => none
  | some c =>
    if c.isDigit then pyInt s.data
    else
      match pyInt s.data.dropLast with
      | none => none
      | some v => some (v * (unitsGet c.toLower : Int))

/-! ## query_bench.py — main loop over the catalogue -/

/-- The static `QUERIES` catalogue (query texts verbatim; the multi-line
ES|QL strings keep their newlines, PromQL braces are written escaped). -/
def QUERIES : List Query :=
  [{ name := "Q1_avg_status_code_1_host", skip := false,
     promql := "avg by (status_code) (avg_over_time(http_requests_qps\x7bexported_instance=\"inst-00004\"\x7d[15m]))",
     esql := "\n            TS metrics-http\n            | WHERE  @timestamp >= NOW() - 15 MINUTES\n              AND @timestamp <= NOW()\n              AND instance == \"inst-00004\"\n            | STATS avg_qps = AVG(http_requests_qps) BY status_code\n",
     range_duration := none, step := none },
   { name := "Q2_avg_status_code_100_hosts_wildcard", skip := false,
     promql := "avg by (status_code) (avg_over_time(http_requests_qps\x7bexported_instance=~\"inst-001.*\"\x7d[5m]))",
     esql := "\n            TS metrics-http\n            | WHERE @timestamp >= NOW() - 60 MINUTES \n              AND @timestamp <= NOW() \n              AND instance LIKE \"inst-001%\"\n            | EVAL bucket = DATE_TRUNC(5 MINUTES, @timestamp)\n            | STATS avg_qps = AVG(http_requests_qps) BY bucket, status_code\n",
     range_duration := some "1h", step := some "5m" },
   { name := "Q3_avg_no_filter_sorted", skip := false,
     promql := "sort_desc(last_over_time(http_requests_qps[5m]))",
     esql := "\nTS metrics-http\n| WHERE @timestamp >= NOW() - 60 MINUTES \n  AND @timestamp <= NOW()\n| EVAL bucket = DATE_TRUNC(5 MINUTES, @timestamp)\n| STATS avg_qps = AVG(http_requests_qps) BY bucket, instance, status_code, method, job\n| SORT avg_qps DESC\n",
     range_duration := some "1h", step := some "5m" },
   { name := "Q4_avg_status_code_4xx_5xx_wildcard", skip := true,
     promql := "avg by (exported_instance) (avg_over_time(http_requests_qps[5m]))",
     esql := "\n            TS metrics-*\n | WHERE @timestamp >= NOW() - 240 MINUTES AND @timestamp <= NOW() \n | STATS AVG(AVG_OVER_TIME(http_requests_qps)) BY instance, TBUCKET(5m)\n",
     range_duration := some "4h", step := some "5m" }]

/-! ## query_bench.py — percentile summary -/

/-- Python `sorted` on rationals: ascending sort (the unique `≤`-sorted
permutation). -/
def sortAsc (l : List ℚ) : List ℚ := l.insertionSort (· ≤ ·)

/-- `statistics.median`: sort; odd length takes the middle element, even
length the mean of the two middle elements; raises on an empty sequence. -/
def pyMedian (l : List ℚ) : Option ℚ :=
  if (sortAsc l).length = 0 then none
  else if (sortAsc l).length % 2 = 1 then (sortAsc l).get? ((sortAsc l).length / 2)
  else
    match (sortAsc l).get? ((sortAsc l).length / 2 - 1),
        (sortAsc l).get? ((sortAsc l).length / 2) with
    | some a, some b => some ((a + b) / 2)
    | _, _ => none

/-- `summarize(name, latencies)` (its computed numbers): `p50` from
`statistics.median`, `idx95 = int(0.95 * (len - 1))` (float arithmetic on
these small values is exact in the `0.95 = 19/20` reading), `p95` the
element of the ascending-sorted list at `idx95`. -/
def summarize (l : List ℚ) : Option (ℚ × ℚ) :=
  match pyMedian l with
  | none => none
  | some p50 =>
    match (sortAsc l).get? ((19 * (l.length - 1)) / 20) with
    | some p95 => some (p50, p95)
    | none => none

/-- Processing of one catalogue entry by the `__main__` loop: a skipped
query is only announced (`continue` before any call); otherwise
`bench_prom` runs, then `bench_esql`, then the two `summarize` calls.  The
`Bool` is `true` when an uncaught exception terminated the process (a
network-level failure inside a bench loop, or `statistics.median` on an
empty list — unreachable since the loops always record `NUM_RUNS`
latencies). -/
def queryStep (oPr oEs : Nat → HttpOutcome) (q : Query) : List Event × Bool :=
  if q.skip then ([Event.announce q.name, Event.skippedNote q.name], false)
  else
    let bp := bench_prom oPr q
    match bp.2 with
    | Except.error _ => (Event.announce q.name :: bp.1, true)
    | Except.ok (latsP, _) =>
      let be := bench_esql oEs q
      match be.2 with
      | Except.error _ => (Event.announce q.name :: (bp.1 ++ be.1), true)
      | Except.ok (latsE, _) =>
        match summarize latsP, summarize latsE with
        | some (a, b), some (c, d) =>
          (Event.announce q.name ::
             (bp.1 ++ be.1 ++
              [Event.summary Backend.prom a b, Event.summary Backend.es c d]),
           false)
        | _, _ => (Event.announce q.name :: (bp.1 ++ be.1), true)

/-- The `__main__` loop over the catalogue, in order; the call oracles are
indexed by catalogue position.  Stops early (crashed = `true`) when a query
step raised. -/
def runMain (oPr oEs : Nat → Nat → HttpOutcome) :
    List Query → Nat → List Event × Bool
  | [], _ => ([], false)
  | q :: rest, k =>
    let st := queryStep (oPr k) (oEs k) q
    if st.2 then (st.1, true)
    else
      let recur := runMain oPr oEs rest (k + 1)
      (st.1 ++ recur.1, recur.2)

/-- The `announce` events of a trace, in order. -/
def announcesOf (evs : List Event) : List String :=
  evs.filterMap fun e =>
    match e with
    | Event.announce n => some n
    | _ => none

/-- Whether an event is a network call. -/
def isCall : Event → Bool
  | Event.call _ _ _ => true
  | _ => false

/-- Whether an event is a latency summary. -/
def isSummary : Event → Bool
  | Event.summary _ _ _ => true
  | _ => false

/-- Whether a setup event is an `ensure_index()` attempt. -/
def isAttempt : SetupEvent → Bool
  | SetupEvent.attempt _ => true
  | _ => false

/-- Verification artifact (not part of the source): decode an instance
label back to its number — a left inverse of `instName`. -/
def decodeInst (s : String) : Nat :=
  Nat.ofDigits 10 (((s.data.drop 5).map charToDigitVal).reverse)

/-- Whether a bulk line is a document (as opposed to an action header). -/
def isDocLine : BulkLine → Bool
  | BulkLine.doc _ _ _ _ _ _ => true
  | BulkLine.action => false

/-! ## Helper lemmas -/

/-- Most-significant-first decimal accumulation agrees with `Nat.ofDigits`
of the reversed digit-value list. -/
theorem foldl_digits_eq (v : Char → Nat) (ds : List Char) : ∀ acc : Nat,
    ds.foldl (fun a c => 10 * a + v c) acc
      = acc * 10 ^ ds.length + Nat.ofDigits 10 ((ds.map v).reverse) := by
  induction ds with
  | nil => intro acc; simp
  | cons c ds ih =>
    intro acc
    simp only [List.foldl_cons, List.map_cons, List.reverse_cons, List.length_cons]
    rw [ih, Nat.ofDigits_append]
    simp only [Nat.ofDigits_singleton, List.length_reverse, List.length_map]
    ring

/-- `pyIntDigits` computes the decimal value of a digit string. -/
theorem pyIntDigits_eq_ofDigits (ds : List Char) :
    pyIntDigits ds = Nat.ofDigits 10 ((ds.map charToDigitVal).reverse) := by
  simpa using foldl_digits_eq charToDigitVal ds 0

/-- `pyInt` on a non-empty all-digit string succeeds with its decimal value. -/
theorem pyInt_digits (ds : List Char) (hne : ds ≠ [])
    (hdig : ∀ c ∈ ds, c.isDigit) :
    pyInt ds = some ((Nat.ofDigits 10 ((ds.map charToDigitVal).reverse) : ℕ) : Int) := by
  have hhead : ds.head? ≠ some '-' := by
    cases ds with
    | nil => simp
    | cons c t =>
      have hc : c.isDigit := hdig c (List.mem_cons_self c t)
      simp only [List.head?_cons, ne_eq, Option.some.injEq]
      rintro rfl
      exact absurd hc (by decide)
  rw [pyInt, if_neg hhead, if_pos ⟨hne, List.all_eq_true.mpr fun c hc => hdig c hc⟩,
    pyIntDigits_eq_ofDigits]

/-- `parse_duration` on `<digits><unit-char>` (the final character not a
digit): the decimal prefix times the unit multiplier of the lower-cased
final character. -/
theorem parse_duration_concat (ds : List Char) (u : Char) (hne : ds ≠ [])
    (hdig : ∀ c ∈ ds, c.isDigit) (hu : ¬u.isDigit) :
    parse_duration (String.mk (ds ++ [u]))
      = some (((Nat.ofDigits 10 ((ds.map charToDigitVal).reverse) : ℕ) : Int)
                * unitsGet u.toLower) := by
  have hdata : (String.mk (ds ++ [u])).data = ds ++ [u] := rfl
  rw [parse_duration, hdata, List.getLast?_concat]
  simp [hu, List.dropLast_concat, pyInt_digits ds hne hdig]

set_option maxRecDepth 4096 in
/-- C5 (confirmed): `parse_duration` parses `<int><unit>` with
unit ∈ {s, m, h, d} into seconds (multipliers 1 / 60 / 3600 / 86400),
defaults to seconds on a purely numeric string, and in particular
`parse_duration "5m" = 300`, `parse_duration "1h" = 3600`,
`parse_duration "90" = 90`. -/
theorem parse_duration_units :
    (∀ (ds : List Char) (u : Char), ds ≠ [] → (∀ c ∈ ds, c.isDigit) →
      u ∈ (['s', 'm', 'h', 'd'] : List Char) →
      parse_duration (String.mk (ds ++ [u]))
        = some (((Nat.ofDigits 10 ((ds.map charToDigitVal).reverse) : ℕ) : Int)
                  * unitsGet u)) ∧
    (∀ ds : List Char, ds ≠ [] → (∀ c ∈ ds, c.isDigit) →
      parse_duration (String.mk ds)
        = some ((Nat.ofDigits 10 ((ds.map charToDigitVal).reverse) : ℕ) : Int)) ∧
    (unitsGet 's' = 1 ∧ unitsGet 'm' = 60 ∧ unitsGet 'h' = 3600 ∧
      unitsGet 'd' = 86400) ∧
    parse_duration "5m" = some 300 ∧
    parse_duration "1h" = some 3600 ∧
    parse_duration "90" = some 90 := by
  refine ⟨?_, ?_, by decide, by decide, by decide, by decide⟩
  · intro ds u hne hdig hu
    have hnotdig : ¬u.isDigit := by
      fin_cases hu <;> decide
    have hlower : u.toLower = u := by
      fin_cases hu <;> decide
    rw [parse_duration_concat ds u hne hdig hnotdig, hlower]
  · intro ds hne hdig
    have hdata : (String.mk ds).data = ds := rfl
    have hlast := List.getLast?_eq_getLast_of_ne_nil hne
    have hlastdig : (ds.getLast hne).isDigit := hdig _ (List.getLast_mem hne)
    rw [parse_duration, hdata, hlast]
    simp only [hlastdig, if_true]
    exact pyInt_digits ds hne hdig

/-- Witness for C5: instantiates the general clauses at `"12" ++ "d"` and
at `"7"`. -/
theorem parse_duration_units_witness :
    parse_duration (String.mk (['1', '2'] ++ ['d'])) = some 1036800 ∧
    parse_duration (String.mk ['7']) = some 7 :=
  ⟨(parse_duration_units.1 ['1', '2'] 'd' (by decide) (by decide)
      (by decide)).trans (by decide),
   (parse_duration_units.2.1 ['7'] (by decide) (by decide)).trans (by decide)⟩

/-- C10 (confirmed): a duration `<int><c>` whose final character is not a
digit and whose lower-cased final character is none of s/m/h/d parses
without error to the bare integer prefix (unknown units are treated as
seconds, multiplier 1). -/
theorem parse_duration_unknown_unit (ds : List Char) (u : Char)
    (hne : ds ≠ []) (hdig : ∀ c ∈ ds, c.isDigit) (hu : ¬u.isDigit)
    (hunit : u.toLower ∉ (['s', 'm', 'h', 'd'] : List Char)) :
    parse_duration (String.mk (ds ++ [u]))
      = some ((Nat.ofDigits 10 ((ds.map charToDigitVal).reverse) : ℕ) : Int) := by
  rw [parse_duration_concat ds u hne hdig hu]
  have h1 : unitsGet u.toLower = 1 := by
    simp only [List.mem_cons, List.mem_singleton, not_or] at hunit
    obtain ⟨h1, h2, h3, h4⟩ := hunit
    simp [unitsGet, h1, h2, h3, h4]
  rw [h1]
  simp

/-- Witness for C10: `parse_duration "7x" = 7`. -/
theorem parse_duration_unknown_unit_witness :
    parse_duration (String.mk (['7'] ++ ['x'])) = some 7 :=
  (parse_duration_unknown_unit ['7'] 'x' (by decide) (by decide) (by decide)
      (by decide)).trans (by decide)

/-- C6 (confirmed): the synthetic value is
`max(0, 100·factor + noise)` with factor 1 for status `"200"` and 0.05
otherwise; it is always non-negative, and for noise in `[-10, 10]` it lies
in `[90, 110]` for status `"200"` and in `[0, 15]` for any other status. -/
theorem computeValue_bounds (sc : String) (noise : ℚ)
    (h1 : -10 ≤ noise) (h2 : noise ≤ 10) :
    computeValue sc noise
        = max 0 (100 * (if sc = "200" then 1 else 5 / 100) + noise) ∧
    0 ≤ computeValue sc noise ∧
    (sc = "200" →
      90 ≤ computeValue sc noise ∧ computeValue sc noise ≤ 110) ∧
    (sc ≠ "200" → computeValue sc noise ≤ 15) := by
  refine ⟨rfl, le_max_left _ _, ?_, ?_⟩
  · intro h
    have : computeValue sc noise = max 0 (100 * 1 + noise) := by
      rw [computeValue, if_pos h]
    rw [this, max_eq_right (by linarith)]
    constructor <;> linarith
  · intro h
    have : computeValue sc noise = max 0 (100 * (5 / 100) + noise) := by
      rw [computeValue, if_neg h]
    rw [this]
    exact max_le (by norm_num) (by norm_num; linarith)

/-- Witness for C6 at status `"500"`, noise `3`. -/
theorem computeValue_bounds_witness :
    0 ≤ computeValue "500" 3 ∧ computeValue "500" 3 ≤ 15 :=
  ⟨(computeValue_bounds "500" 3 (by norm_num) (by norm_num)).2.1,
   (computeValue_bounds "500" 3 (by norm_num) (by norm_num)).2.2.2
     (by decide)⟩

/-- `statistics.median` succeeds on every non-empty sequence. -/
theorem pyMedian_isSome (l : List ℚ) (hne : l ≠ []) :
    ∃ m, pyMedian l = some m := by
  have hlen : (sortAsc l).length = l.length :=
    (List.perm_insertionSort _ l).length_eq
  have hn : 0 < l.length := List.length_pos.mpr hne
  unfold pyMedian
  by_cases hpar : (sortAsc l).length % 2 = 1
  · have h2 : (sortAsc l).length / 2 < (sortAsc l).length := by omega
    rw [if_neg (by omega), if_pos hpar, List.get?_eq_getElem?,
      List.getElem?_eq_getElem h2]
    exact ⟨_, rfl⟩
  · have ha : (sortAsc l).length / 2 - 1 < (sortAsc l).length := by omega
    have hb : (sortAsc l).length / 2 < (sortAsc l).length := by omega
    rw [if_neg (by omega), if_neg hpar, List.get?_eq_getElem?,
      List.get?_eq_getElem?, List.getElem?_eq_getElem ha,
      List.getElem?_eq_getElem hb]
    exact ⟨_, rfl⟩

/-- C4 (confirmed): for every non-empty latency sequence, `summarize`
reports `p50 = statistics.median` of the sequence and `p95` the element at
index `⌊0.95·(n−1)⌋ = (19·(n−1))/20` of the ascending-sorted sequence
(`sortAsc l` being the sorted permutation of `l`); in particular
`summarize [10, 20, 30, 40, 50]` reports `p50 = 30` and `p95 = 40`. -/
theorem summarize_percentiles (l : List ℚ) (hne : l ≠ []) :
    (∃ p50 p95, summarize l = some (p50, p95) ∧ pyMedian l = some p50 ∧
        (sortAsc l).get? ((19 * (l.length - 1)) / 20) = some p95) ∧
    (sortAsc l).Perm l ∧ (sortAsc l).Sorted (· ≤ ·) ∧
    summarize ([10, 20, 30, 40, 50] : List ℚ) = some (30, 40) := by
  refine ⟨?_, List.perm_insertionSort _ l, List.sorted_insertionSort _ l, by decide⟩
  obtain ⟨m, hm⟩ := pyMedian_isSome l hne
  have hn : 0 < l.length := List.length_pos.mpr hne
  have hlen : (sortAsc l).length = l.length :=
    (List.perm_insertionSort _ l).length_eq
  have hidx : (19 * (l.length - 1)) / 20 < (sortAsc l).length := by omega
  have h95 : (sortAsc l).get? ((19 * (l.length - 1)) / 20)
      = some ((sortAsc l).get ⟨_, hidx⟩) := by
    rw [List.get?_eq_getElem?, List.getElem?_eq_getElem hidx]
    rfl
  refine ⟨m, _, ?_, hm, h95⟩
  unfold summarize
  rw [hm, h95]

/-- Witness for C4: the spec's worked example. -/
theorem summarize_percentiles_witness :
    summarize ([10, 20, 30, 40, 50] : List ℚ) = some (30, 40) :=
  (summarize_percentiles ([10, 20, 30, 40, 50] : List ℚ) (by decide)).2.2.2

/-- C8 (confirmed): the setup phase of `ingest_loop` makes at most 3
`ensure_index()` attempts, every inter-attempt delay is exactly 2 seconds,
and when all three attempts fail it prints the degraded-mode warning and
still enters the ingestion loop (entry into the ingestion loop happens for
every outcome pattern — setup failure is never fatal). -/
theorem setup_retry_bounded_then_proceed (r : Nat → Bool) :
    (setupPhase r).countP isAttempt ≤ 3 ∧
    (r 0 = false → r 1 = false → r 2 = false →
      setupPhase r
        = [SetupEvent.attempt 0, SetupEvent.sleep 2, SetupEvent.attempt 1,
           SetupEvent.sleep 2, SetupEvent.attempt 2, SetupEvent.warnDegraded,
           SetupEvent.enterIngestLoop]) ∧
    (∀ d : ℚ, SetupEvent.sleep d ∈ setupPhase r → d = 2) ∧
    SetupEvent.enterIngestLoop ∈ setupPhase r := by
  cases h0 : r 0 <;> cases h1 : r 1 <;> cases h2 : r 2 <;>
    simp_all [setupPhase, setupGo, isAttempt, List.countP_cons]

/-- Witness for C8: all three attempts failing. -/
theorem setup_retry_bounded_then_proceed_witness :
    setupPhase (fun _ => false)
      = [SetupEvent.attempt 0, SetupEvent.sleep 2, SetupEvent.attempt 1,
         SetupEvent.sleep 2, SetupEvent.attempt 2, SetupEvent.warnDegraded,
         SetupEvent.enterIngestLoop] :=
  (setup_retry_bounded_then_proceed (fun _ => false)).2.1 rfl rfl rfl

/-! ## Label-space cardinality and distinctness (C1, C9) -/

/-- `charToDigitVal` inverts `Nat.digitChar` on decimal digits. -/
theorem charToDigitVal_digitChar {d : Nat} (h : d < 10) :
    charToDigitVal (Nat.digitChar d) = d := by
  interval_cases d <;> decide

/-- Decoding the formatted digit characters recovers the digit list. -/
theorem map_charToDigitVal_digitChars (n : Nat) :
    (digitChars n).map charToDigitVal = (Nat.digits 10 n).reverse := by
  rw [digitChars, List.map_reverse, List.map_map]
  congr 1
  calc List.map (charToDigitVal ∘ Nat.digitChar) (Nat.digits 10 n)
      = List.map id (Nat.digits 10 n) :=
        List.map_congr_left fun d hd =>
          charToDigitVal_digitChar (Nat.digits_lt_base (by norm_num) hd)
    _ = Nat.digits 10 n := List.map_id _

/-- A run of zero digits contributes nothing to `ofDigits`. -/
theorem ofDigits_replicate_zero (b z : Nat) :
    Nat.ofDigits b (List.replicate z 0) = 0 := by
  induction z with
  | zero => rfl
  | succ z ih => simp [List.replicate_succ, Nat.ofDigits_cons, ih]

/-- `decodeInst` recovers the instance number from `f"inst-{i:05d}"`:
the zero padding is harmless. -/
theorem decodeInst_instName (i : Nat) : decodeInst (instName i) = i := by
  have hdata : (instName i).data
      = ['i', 'n', 's', 't', '-'] ++ pad5 (digitChars i) := by
    rw [instName, String.data_append]
  rw [decodeInst, hdata]
  have hdrop : (['i', 'n', 's', 't', '-'] ++ pad5 (digitChars i)).drop 5
      = pad5 (digitChars i) := rfl
  rw [hdrop, pad5, List.map_append, List.map_replicate,
    map_charToDigitVal_digitChars, List.reverse_append, List.reverse_reverse,
    List.reverse_replicate]
  have hc : charToDigitVal '0' = 0 := rfl
  rw [hc]
  simp [Nat.ofDigits_append, Nat.ofDigits_digits, ofDigits_replicate_zero]

/-- The instance labels are pairwise distinct. -/
theorem instName_injective : Function.Injective instName :=
  Function.LeftInverse.injective decodeInst_instName

/-- The truncated status-code list keeps its distinctness. -/
theorem statusCodes_nodup (cfg : GenConfig) : (STATUS_CODES cfg).Nodup :=
  (List.take_sublist _ _).nodup (by decide)

/-- The truncated method list keeps its distinctness. -/
theorem methods_nodup (cfg : GenConfig) : (METHODS cfg).Nodup :=
  (List.take_sublist _ _).nodup (by decide)

/-- Every label set in the block of instance `i` carries that instance's
label. -/
theorem mem_instance_block {cfg : GenConfig} {i : Nat} {x : Labels}
    (hx : x ∈ (STATUS_CODES cfg).flatMap fun sc =>
        (METHODS cfg).map fun m =>
          ({ job := "demo", instanceLabel := instName i, status_code := sc,
             method := m } : Labels)) :
    x.instanceLabel = instName i := by
  simp only [List.mem_flatMap, List.mem_map] at hx
  obtain ⟨sc, _, m, _, rfl⟩ := hx
  rfl

/-- `generate_series` yields pairwise-distinct label sets. -/
theorem generate_series_nodup (cfg : GenConfig) :
    (generate_series cfg).Nodup := by
  rw [generate_series, List.nodup_flatMap]
  constructor
  · intro i _
    rw [List.nodup_flatMap]
    constructor
    · intro sc _
      exact (methods_nodup cfg).map fun m₁ m₂ h => congrArg Labels.method h
    · refine (statusCodes_nodup cfg).imp ?_
      intro sc₁ sc₂ hne x hx₁ hx₂
      simp only [List.mem_map] at hx₁ hx₂
      obtain ⟨m₁, _, rfl⟩ := hx₁
      obtain ⟨m₂, _, h⟩ := hx₂
      exact hne (congrArg Labels.status_code h).symm
  · refine List.Pairwise.imp ?_
      (List.nodup_range cfg.numInstances)
    intro i₁ i₂ hne x hx₁ hx₂
    exact hne (instName_injective
      ((mem_instance_block hx₁).symm.trans (mem_instance_block hx₂)))

/-- Length of a `flatMap` whose blocks all have the same length. -/
theorem length_flatMap_const {α β : Type*} (l : List α) (f : α → List β)
    (c : Nat) (h : ∀ a ∈ l, (f a).length = c) :
    (l.flatMap f).length = l.length * c := by
  induction l with
  | nil => simp
  | cons x xs ih =>
    simp only [List.flatMap_cons, List.length_append, List.length_cons]
    rw [h x (List.mem_cons_self x xs),
      ih fun a ha => h a (List.mem_cons_of_mem _ ha)]
    ring

/-- The number of label sets yielded per tick, for every configuration. -/
theorem generate_series_length (cfg : GenConfig) :
    (generate_series cfg).length
      = cfg.numInstances * min cfg.numStatusCodes 5 * min cfg.numMethods 2 := by
  have hminS : (STATUS_CODES cfg).length = min cfg.numStatusCodes 5 := by
    rw [STATUS_CODES, List.length_take]
    rfl
  have hminM : (METHODS cfg).length = min cfg.numMethods 2 := by
    rw [METHODS, List.length_take]
    rfl
  rw [generate_series,
    length_flatMap_const _ _ (min cfg.numStatusCodes 5 * min cfg.numMethods 2)
      (fun i _ => by
        rw [length_flatMap_const _ _ (min cfg.numMethods 2)
            (fun sc _ => by rw [List.length_map, hminM]),
          hminS]),
    List.length_range, mul_assoc]

/-- Counterexample for C1: with `NUM_INSTANCES = 1`, `NUM_STATUS_CODES = 6`,
`NUM_METHODS = 2` the generator yields 10 label sets, not
`1 × 6 × 2 = 12` — the status-code dimension is silently capped at the
5 hardcoded codes. -/
theorem generate_series_card_counterexample :
    (generate_series ⟨1, 6, 2⟩).length = 10 ∧
    (generate_series ⟨1, 6, 2⟩).length ≠ 1 * 6 * 2 := by
  rw [generate_series_length ⟨1, 6, 2⟩]
  norm_num

/-- C1 (corrected): `generate_series()` yields exactly
`NUM_INSTANCES × min(NUM_STATUS_CODES, 5) × min(NUM_METHODS, 2)` pairwise
distinct label sets — equal to the configured product whenever the
configured counts do not exceed the hardcoded domain lists.  Membership is
a pure function of the configuration (the embedding takes no random
input), so the same sequence is regenerated on every invocation. -/
theorem generate_series_card_min_capped (cfg : GenConfig) :
    (generate_series cfg).Nodup ∧
    (generate_series cfg).length
      = cfg.numInstances * min cfg.numStatusCodes 5 * min cfg.numMethods 2 ∧
    (cfg.numStatusCodes ≤ 5 → cfg.numMethods ≤ 2 →
      (generate_series cfg).length
        = cfg.numInstances * cfg.numStatusCodes * cfg.numMethods) := by
  refine ⟨generate_series_nodup cfg, generate_series_length cfg,
    fun h5 h2 => ?_⟩
  rw [generate_series_length cfg, min_eq_left h5, min_eq_left h2]

/-- Witness for C1 (amended) at `NUM_INSTANCES = 2`, `NUM_STATUS_CODES = 1`,
`NUM_METHODS = 1` (the spec's own scenario: exactly 2 label sets). -/
theorem generate_series_card_min_capped_witness :
    (generate_series ⟨2, 1, 1⟩).Nodup ∧
    (generate_series ⟨2, 1, 1⟩).length = 2 * 1 * 1 :=
  ⟨(generate_series_card_min_capped ⟨2, 1, 1⟩).1,
   (generate_series_card_min_capped ⟨2, 1, 1⟩).2.2 (by norm_num) (by norm_num)⟩

/-- C9 (confirmed): the status-code and method domains are hardcoded lists
of 5 and 2 elements truncated by the configured counts, so
`generate_series` always yields
`NUM_INSTANCES × min(NUM_STATUS_CODES, 5) × min(NUM_METHODS, 2)` label
sets; for any non-degenerate configuration exceeding a hardcoded list the
count differs from `NUM_INSTANCES × NUM_STATUS_CODES × NUM_METHODS`. -/
theorem series_domains_capped :
    (∀ cfg : GenConfig, (generate_series cfg).length
        = cfg.numInstances * min cfg.numStatusCodes 5 * min cfg.numMethods 2) ∧
    (∀ cfg : GenConfig, 0 < cfg.numInstances → 0 < cfg.numStatusCodes →
      0 < cfg.numMethods →
      (5 < cfg.numStatusCodes ∨ 2 < cfg.numMethods) →
      (generate_series cfg).length
        ≠ cfg.numInstances * cfg.numStatusCodes * cfg.numMethods) := by
  refine ⟨generate_series_length, ?_⟩
  intro cfg hN hS hM hcap
  rw [generate_series_length]
  have hlt : cfg.numInstances * min cfg.numStatusCodes 5 * min cfg.numMethods 2
      < cfg.numInstances * cfg.numStatusCodes * cfg.numMethods := by
    rcases hcap with h | h
    · have h5 : min cfg.numStatusCodes 5 = 5 := min_eq_right (by omega)
      have hb : 0 < min cfg.numMethods 2 := by omega
      calc cfg.numInstances * min cfg.numStatusCodes 5 * min cfg.numMethods 2
          < cfg.numInstances * cfg.numStatusCodes * min cfg.numMethods 2 := by
            rw [h5]
            exact Nat.mul_lt_mul_of_lt_of_le
              (Nat.mul_lt_mul_of_le_of_lt (le_refl _) h hN) (le_refl _) hb
        _ ≤ cfg.numInstances * cfg.numStatusCodes * cfg.numMethods :=
            Nat.mul_le_mul_left _ (min_le_left _ _)
    · have h2 : min cfg.numMethods 2 = 2 := min_eq_right (by omega)
      have ha : 0 < cfg.numInstances * min cfg.numStatusCodes 5 := by
        have : 0 < min cfg.numStatusCodes 5 := by omega
        exact Nat.mul_pos hN this
      calc cfg.numInstances * min cfg.numStatusCodes 5 * min cfg.numMethods 2
          < cfg.numInstances * min cfg.numStatusCodes 5 * cfg.numMethods := by
            rw [h2]
            exact Nat.mul_lt_mul_of_le_of_lt (le_refl _) h ha
        _ ≤ cfg.numInstances * cfg.numStatusCodes * cfg.numMethods :=
            Nat.mul_le_mul_right _
              (Nat.mul_le_mul_left _ (min_le_left _ _))
  omega

/-- Witness for C9: `NUM_STATUS_CODES = 6` yields `1 × 5 × 2 = 10`
label sets, not `12`. -/
theorem series_domains_capped_witness :
    (generate_series ⟨1, 6, 2⟩).length = 1 * min 6 5 * min 2 2 ∧
    (generate_series ⟨1, 6, 2⟩).length ≠ 1 * 6 * 2 :=
  ⟨series_domains_capped.1 ⟨1, 6, 2⟩,
   series_domains_capped.2 ⟨1, 6, 2⟩ (by norm_num) (by norm_num) (by norm_num)
     (Or.inl (by norm_num))⟩

/-! ## Bulk payload structure (C2) -/

/-- Each swept label set contributes exactly two lines. -/
theorem bulkStep_fst_length (ts : String) (noise : Nat → ℚ) :
    ∀ (ls : List Labels) (k : Nat),
      (bulkStep ts noise ls k).1.length = 2 * ls.length := by
  intro ls
  induction ls with
  | nil => intro k; rfl
  | cons l rest ih =>
    intro k
    simp only [bulkStep, List.length_cons, ih (k + 1)]
    ring

/-- Exactly one of each label set's two lines is a document. -/
theorem bulkStep_countP_doc (ts : String) (noise : Nat → ℚ) :
    ∀ (ls : List Labels) (k : Nat),
      (bulkStep ts noise ls k).1.countP isDocLine = ls.length := by
  intro ls
  induction ls with
  | nil => intro k; rfl
  | cons l rest ih =>
    intro k
    simp [bulkStep, List.countP_cons, isDocLine, ih (k + 1)]

/-- Every document in the bulk lines carries the tick's timestamp. -/
theorem bulkStep_doc_timestamp (ts : String) (noise : Nat → ℚ) :
    ∀ (ls : List Labels) (k : Nat) (t : String) (v : ℚ) (j ins sc m : String),
      BulkLine.doc t v j ins sc m ∈ (bulkStep ts noise ls k).1 → t = ts := by
  intro ls
  induction ls with
  | nil => intro k t v j ins sc m h; simp [bulkStep] at h
  | cons l rest ih =>
    intro k t v j ins sc m h
    simp only [bulkStep, List.mem_cons] at h
    rcases h with h | h | h
    · exact absurd h (by simp)
    · exact (BulkLine.doc.inj h).1
    · exact ih (k + 1) t v j ins sc m h

/-- The gauge updates are keyed by the swept label sets, in order. -/
theorem bulkStep_snd_map_fst (ts : String) (noise : Nat → ℚ) :
    ∀ (ls : List Labels) (k : Nat),
      (bulkStep ts noise ls k).2.map Prod.fst = ls := by
  intro ls
  induction ls with
  | nil => intro k; rfl
  | cons l rest ih =>
    intro k
    simp [bulkStep, ih (k + 1)]

/-- JSON escaping never emits a raw newline character. -/
theorem nl_not_mem_escChar (c : Char) : '\n' ∉ escChar c := by
  unfold escChar
  split_ifs with h1 h2 h3 h4 h5 h6
  · decide
  · decide
  · decide
  · decide
  · decide
  · simp only [List.mem_cons, List.not_mem_nil, or_false]
    push_neg
    refine ⟨by decide, by decide, by decide, by decide, ?_, ?_⟩
    · have hk : c.toNat / 16 < 2 := by omega
      set k := c.toNat / 16 with hkdef
      interval_cases k <;> decide
    · have hk : c.toNat % 16 < 16 := Nat.mod_lt _ (by norm_num)
      set k := c.toNat % 16 with hkdef
      interval_cases k <;> decide
  · simp only [List.mem_singleton]
    exact fun hc => h3 hc.symm

/-- JSON string literals contain no raw newline. -/
theorem nl_not_mem_jsonString (s : String) : '\n' ∉ (jsonString s).data := by
  show '\n' ∉ ('"' :: (s.data.flatMap escChar ++ ['"']))
  simp only [List.mem_cons, List.mem_append, List.mem_flatMap,
    List.mem_singleton]
  rintro (h | ⟨c, _, hc⟩ | h)
  · exact absurd h (by decide)
  · exact nl_not_mem_escChar c hc
  · exact absurd h (by decide)

/-- Joining newline-free pieces with a newline-free separator stays
newline-free. -/
theorem nl_not_mem_joinSep (sep : String) (hsep : '\n' ∉ sep.data) :
    ∀ L : List String, (∀ s ∈ L, '\n' ∉ s.data) →
      '\n' ∉ (joinSep sep L).data := by
  intro L
  induction L with
  | nil =>
    intro _
    show '\n' ∉ ("" : String).data
    decide
  | cons x rest ih =>
    intro h
    cases rest with
    | nil => exact h x (by simp)
    | cons y rest' =>
      show '\n' ∉ ((x ++ sep ++ joinSep sep (y :: rest')).data)
      rw [String.data_append, String.data_append]
      simp only [List.mem_append]
      rintro ((h1 | h2) | h3)
      · exact h x (by simp) h1
      · exact hsep h2
      · exact ih (fun s hs => h s (List.mem_cons_of_mem _ hs)) h3

/-- A JSON object over newline-free values is newline-free. -/
theorem nl_not_mem_jsonObj (fields : List (String × String))
    (h : ∀ f ∈ fields, '\n' ∉ (f.2).data) : '\n' ∉ (jsonObj fields).data := by
  rw [jsonObj, String.data_append, String.data_append]
  simp only [List.mem_append]
  rintro ((h1 | h2) | h3)
  · exact absurd h1 (by decide)
  · refine nl_not_mem_joinSep ", " (by decide) _ ?_ h2
    intro s hs
    simp only [List.mem_map] at hs
    obtain ⟨f, hf, rfl⟩ := hs
    rw [String.data_append, String.data_append]
    simp only [List.mem_append]
    rintro ((a | b) | c)
    · exact nl_not_mem_jsonString f.1 a
    · exact absurd b (by decide)
    · exact h f hf c
  · exact absurd h3 (by decide)

/-- Serialised bulk lines are newline-free whenever the float rendering
is. -/
theorem nl_not_mem_serializeLine (numRepr : ℚ → String)
    (hnum : ∀ q, '\n' ∉ (numRepr q).data) (ln : BulkLine) :
    '\n' ∉ (serializeLine numRepr ln).data := by
  cases ln with
  | action =>
    refine nl_not_mem_jsonObj _ ?_
    intro f hf
    simp only [List.mem_singleton] at hf
    subst hf
    exact nl_not_mem_jsonObj [] (by simp)
  | doc t v j ins sc m =>
    refine nl_not_mem_jsonObj _ ?_
    intro f hf
    simp only [List.mem_cons, List.mem_singleton, List.not_mem_nil,
      or_false] at hf
    rcases hf with rfl | rfl | rfl | rfl | rfl | rfl
    · exact nl_not_mem_jsonString t
    · exact hnum v
    · exact nl_not_mem_jsonString j
    · exact nl_not_mem_jsonString ins
    · exact nl_not_mem_jsonString sc
    · exact nl_not_mem_jsonString m

/-- Number of newlines in `"\n".join` of newline-free pieces. -/
theorem count_nl_joinSep :
    ∀ L : List String, (∀ s ∈ L, '\n' ∉ s.data) → L ≠ [] →
      ((joinSep "\n" L).data.count '\n') = L.length - 1 := by
  intro L
  induction L with
  | nil => intro _ h; exact absurd rfl h
  | cons x rest ih =>
    intro h _
    cases rest with
    | nil =>
      show ((x).data.count '\n') = 1 - 1
      simp [List.count_eq_zero.mpr (h x (by simp))]
    | cons y rest' =>
      show (((x ++ "\n" ++ joinSep "\n" (y :: rest')).data).count '\n')
        = (x :: y :: rest').length - 1
      rw [String.data_append, String.data_append, List.count_append,
        List.count_append, List.count_eq_zero.mpr (h x (by simp)),
        ih (fun s hs => h s (List.mem_cons_of_mem _ hs)) (by simp)]
      have hone : ((("\n" : String)).data.count '\n') = 1 := by decide
      rw [hone]
      simp only [List.length_cons]
      omega

/-- Counterexample for C2: with `NUM_INSTANCES = 1`, `NUM_STATUS_CODES = 6`,
`NUM_METHODS = 2` the bulk body has `2 × 10 = 20` lines, not
`2 × (1 × 6 × 2) = 24` — the per-tick line count follows the capped label
space. -/
theorem build_bulk_payload_line_count_counterexample :
    (build_bulk_payload ⟨1, 6, 2⟩ (fun _ => 0) "T").1.length = 20 ∧
    (build_bulk_payload ⟨1, 6, 2⟩ (fun _ => 0) "T").1.length
      ≠ 2 * (1 * 6 * 2) := by
  have h : (build_bulk_payload ⟨1, 6, 2⟩ (fun _ => 0) "T").1.length
      = 2 * (generate_series ⟨1, 6, 2⟩).length :=
    bulkStep_fst_length _ _ _ 0
  rw [h, generate_series_length]
  norm_num

/-- C2 (corrected): every label set yielded by `generate_series`
contributes exactly one create-action/document pair to the bulk body and
exactly one whole-value gauge update, so the payload has exactly
`2 × (number of yielded label sets)` lines — that is,
`2 × NUM_INSTANCES × min(NUM_STATUS_CODES, 5) × min(NUM_METHODS, 2)` —
joined by newlines with one trailing newline, and every document's
`@timestamp` equals the single timestamp of the tick. -/
theorem build_bulk_payload_pairs_timestamps (cfg : GenConfig)
    (noise : Nat → ℚ) (ts : String) (numRepr : ℚ → String) :
    (build_bulk_payload cfg noise ts).1.length
      = 2 * (generate_series cfg).length ∧
    (build_bulk_payload cfg noise ts).1.length
      = 2 * (cfg.numInstances * min cfg.numStatusCodes 5
              * min cfg.numMethods 2) ∧
    (build_bulk_payload cfg noise ts).1.countP isDocLine
      = (generate_series cfg).length ∧
    (∀ (t : String) (v : ℚ) (j ins sc m : String),
      BulkLine.doc t v j ins sc m ∈ (build_bulk_payload cfg noise ts).1 →
        t = ts) ∧
    (build_bulk_payload cfg noise ts).2.map Prod.fst = generate_series cfg ∧
    (∀ l ∈ generate_series cfg,
      ((build_bulk_payload cfg noise ts).2.map Prod.fst).count l = 1) ∧
    bulkBody cfg noise ts numRepr
      = joinSep "\n"
          ((build_bulk_payload cfg noise ts).1.map (serializeLine numRepr))
        ++ "\n" ∧
    ((∀ q, '\n' ∉ (numRepr q).data) → 0 < (generate_series cfg).length →
      ((bulkBody cfg noise ts numRepr).data.count '\n')
        = 2 * (generate_series cfg).length) := by
  refine ⟨bulkStep_fst_length _ _ _ 0, ?_, bulkStep_countP_doc _ _ _ 0,
    fun t v j ins sc m h => bulkStep_doc_timestamp _ _ _ 0 t v j ins sc m h,
    bulkStep_snd_map_fst _ _ _ 0, ?_, rfl, ?_⟩
  · rw [show (build_bulk_payload cfg noise ts).1.length
        = 2 * (generate_series cfg).length from bulkStep_fst_length _ _ _ 0,
      generate_series_length]
  · intro l hl
    rw [show (build_bulk_payload cfg noise ts).2.map Prod.fst
        = generate_series cfg from bulkStep_snd_map_fst _ _ _ 0]
    exact List.count_eq_one_of_mem (generate_series_nodup cfg) hl
  · intro hnum hK
    have hser : ∀ s ∈ (build_bulk_payload cfg noise ts).1.map
        (serializeLine numRepr), '\n' ∉ s.data := by
      intro s hs
      simp only [List.mem_map] at hs
      obtain ⟨ln, _, rfl⟩ := hs
      exact nl_not_mem_serializeLine numRepr hnum ln
    have hLlen : ((build_bulk_payload cfg noise ts).1.map
        (serializeLine numRepr)).length = 2 * (generate_series cfg).length := by
      rw [List.length_map]
      exact bulkStep_fst_length _ _ _ 0
    have hLne : (build_bulk_payload cfg noise ts).1.map
        (serializeLine numRepr) ≠ [] := by
      intro heq
      rw [heq] at hLlen
      simp only [List.length_nil] at hLlen
      omega
    rw [bulkBody, String.data_append, List.count_append,
      count_nl_joinSep _ hser hLne, hLlen]
    have hone : ((("\n" : String)).data.count '\n') = 1 := by decide
    rw [hone]
    omega

/-- Witness for C2 (amended) on the spec's own tiny scenario
(`2 × 1 × 1 × 1 = 2` lines, 2 newlines in the body). -/
theorem build_bulk_payload_pairs_timestamps_witness :
    (build_bulk_payload ⟨1, 1, 1⟩ (fun _ => 0) "T").1.length = 2 ∧
    ((bulkBody ⟨1, 1, 1⟩ (fun _ => 0) "T" (fun _ => "0")).data.count '\n')
      = 2 := by
  have h := build_bulk_payload_pairs_timestamps ⟨1, 1, 1⟩ (fun _ => 0) "T"
    (fun _ => "0")
  constructor
  · rw [h.2.1]
    decide
  · rw [h.2.2.2.2.2.2.2 (fun q => by decide)
      (by rw [generate_series_length]; decide),
      generate_series_length]
    decide

/-! ## Benchmark failure semantics (C3) -/

/-- If any call in the remaining window raises, the bench loop aborts with
the exception (latencies gathered so far are lost). -/
theorem benchGo_exn (b : Backend) (timeout : Nat) (o : Nat → HttpOutcome) :
    ∀ (rem i : Nat) (lats : List ℚ) (fr : Option String),
      (∃ j, i ≤ j ∧ j < i + rem ∧ o j = HttpOutcome.exn) →
      (benchGo b timeout o i rem lats fr).2 = Except.error () := by
  intro rem
  induction rem with
  | zero =>
    rintro i lats fr ⟨j, h1, h2, _⟩
    omega
  | succ rem ih =>
    rintro i lats fr ⟨j, h1, h2, hj⟩
    cases ho : o i with
    | exn => simp [benchGo, ho]
    | resp st bd el =>
      have hji : j ≠ i := by
        rintro rfl
        rw [ho] at hj
        exact HttpOutcome.noConfusion hj
      simp only [benchGo, ho]
      exact ih (i + 1) (lats ++ [el]) _ ⟨j, by omega, by omega, hj⟩

/-- When every call from index `i ≥ 1` on returns a response, the loop
records every elapsed time in order and never touches `first_result`. -/
theorem benchGo_resp_tail (b : Backend) (timeout : Nat) (st : Nat → Nat)
    (bd : Nat → String) (el : Nat → ℚ) :
    ∀ (rem i : Nat) (lats : List ℚ) (fr : Option String), 1 ≤ i →
      benchGo b timeout (fun j => HttpOutcome.resp (st j) (bd j) (el j))
          i rem lats fr
        = ((List.range' i rem).map fun j => Event.call b j timeout,
           Except.ok (lats ++ (List.range' i rem).map el, fr)) := by
  intro rem
  induction rem with
  | zero =>
    intro i lats fr _
    simp [benchGo, List.range']
  | succ rem ih =>
    intro i lats fr hi
    have hd : decide (i = 0) = false := decide_eq_false (by omega)
    simp only [benchGo, hd, Bool.false_and]
    rw [if_neg (by simp)]
    rw [ih (i + 1) (lats ++ [el i]) fr (by omega), List.range'_succ]
    simp [List.append_assoc]

/-- A full run of responses (2xx or not) records exactly `NUM_RUNS`
latencies; `first_result` is the body of run 0 iff its status was 200. -/
theorem benchGo_resp_all (b : Backend) (timeout : Nat) (st : Nat → Nat)
    (bd : Nat → String) (el : Nat → ℚ) :
    benchGo b timeout (fun j => HttpOutcome.resp (st j) (bd j) (el j))
        0 NUM_RUNS [] none
      = ([Event.call b 0 timeout, Event.call b 1 timeout,
          Event.call b 2 timeout, Event.call b 3 timeout,
          Event.call b 4 timeout],
         Except.ok ([el 0, el 1, el 2, el 3, el 4],
           if st 0 = 200 then some (bd 0) else none)) := by
  rw [NUM_RUNS]
  simp [benchGo]

/-- Counterexample for C3: with the backend unreachable (`requests` raises
on every call — there is no `try`/`except` in `bench_prom`/`bench_esql`),
the very first call aborts the run with the exception: no latency is ever
recorded, instead of `NUM_RUNS` recorded latencies. -/
theorem bench_unreachable_aborts_counterexample :
    bench_prom (fun _ => HttpOutcome.exn)
        { name := "Q1_avg_status_code_1_host", skip := false,
          promql := "", esql := "", range_duration := none, step := none }
      = ([Event.call Backend.prom 0 15], Except.error ()) ∧
    bench_esql (fun _ => HttpOutcome.exn)
        { name := "Q1_avg_status_code_1_host", skip := false,
          promql := "", esql := "", range_duration := none, step := none }
      = ([Event.call Backend.es 0 15], Except.error ()) :=
  ⟨rfl, rfl⟩

/-- C3 (corrected): a non-2xx HTTP *response* never aborts the run — its
latency is appended and the batch continues, so a backend answering only
errors still yields `NUM_RUNS` recorded latencies per query; but a
network-level failure (unreachable backend, timeout) raises out of the
bench loop and aborts the run, recording nothing for that query. -/
theorem bench_latency_recording (q : Query) (st : Nat → Nat)
    (bd : Nat → String) (el : Nat → ℚ) (o : Nat → HttpOutcome) :
    (bench_prom (fun j => HttpOutcome.resp (st j) (bd j) (el j)) q
      = ([Event.call Backend.prom 0 (promTimeout q),
          Event.call Backend.prom 1 (promTimeout q),
          Event.call Backend.prom 2 (promTimeout q),
          Event.call Backend.prom 3 (promTimeout q),
          Event.call Backend.prom 4 (promTimeout q)],
         Except.ok ([el 0, el 1, el 2, el 3, el 4],
           if st 0 = 200 then some (bd 0) else none))) ∧
    (bench_esql (fun j => HttpOutcome.resp (st j) (bd j) (el j)) q
      = ([Event.call Backend.es 0 (esqlTimeout q),
          Event.call Backend.es 1 (esqlTimeout q),
          Event.call Backend.es 2 (esqlTimeout q),
          Event.call Backend.es 3 (esqlTimeout q),
          Event.call Backend.es 4 (esqlTimeout q)],
         Except.ok ([el 0, el 1, el 2, el 3, el 4],
           if st 0 = 200 then some (bd 0) else none))) ∧
    ([el 0, el 1, el 2, el 3, el 4] : List ℚ).length = NUM_RUNS ∧
    ((∃ j, j < NUM_RUNS ∧ o j = HttpOutcome.exn) →
      (bench_prom o q).2 = Except.error () ∧
      (bench_esql o q).2 = Except.error ()) :=
  ⟨benchGo_resp_all Backend.prom (promTimeout q) st bd el,
   benchGo_resp_all Backend.es (esqlTimeout q) st bd el,
   rfl,
   fun ⟨j, hj, hexn⟩ =>
     ⟨benchGo_exn _ _ o NUM_RUNS 0 [] none ⟨j, Nat.zero_le j, by omega, hexn⟩,
      benchGo_exn _ _ o NUM_RUNS 0 [] none ⟨j, Nat.zero_le j, by omega, hexn⟩⟩⟩

/-- Witness for C3 (amended): a backend answering 500 on every call still
yields 5 recorded latencies; an unreachable backend aborts. -/
theorem bench_latency_recording_witness :
    (bench_prom (fun _ => HttpOutcome.resp 500 "" 7)
        { name := "Q1_avg_status_code_1_host", skip := false,
          promql := "", esql := "", range_duration := none, step := none }).2
      = Except.ok ([7, 7, 7, 7, 7], none) ∧
    (bench_prom (fun _ => HttpOutcome.exn)
        { name := "Q1_avg_status_code_1_host", skip := false,
          promql := "", esql := "", range_duration := none, step := none }).2
      = Except.error () := by
  have h := bench_latency_recording
    { name := "Q1_avg_status_code_1_host", skip := false,
      promql := "", esql := "", range_duration := none, step := none }
    (fun _ => 500) (fun _ => "") (fun _ => 7) (fun _ => HttpOutcome.exn)
  constructor
  · rw [h.1]
    rfl
  · exact (h.2.2.2 ⟨0, by decide, rfl⟩).1

/-! ## Skipped queries and catalogue order (C7) -/

/-- Every event emitted inside a bench loop is a network call. -/
theorem benchGo_events_call (b : Backend) (timeout : Nat)
    (o : Nat → HttpOutcome) :
    ∀ (rem i : Nat) (lats : List ℚ) (fr : Option String) (e : Event),
      e ∈ (benchGo b timeout o i rem lats fr).1 → isCall e = true := by
  intro rem
  induction rem with
  | zero =>
    intro i lats fr e he
    simp [benchGo] at he
  | succ rem ih =>
    intro i lats fr e he
    cases ho : o i with
    | exn =>
      simp only [benchGo, ho, List.mem_singleton] at he
      subst he
      rfl
    | resp st bd el =>
      simp only [benchGo, ho, List.mem_cons] at he
      rcases he with rfl | he
      · rfl
      · exact ih (i + 1) _ _ e he

/-- `announcesOf` distributes over append. -/
theorem announcesOf_append (l₁ l₂ : List Event) :
    announcesOf (l₁ ++ l₂) = announcesOf l₁ ++ announcesOf l₂ :=
  List.filterMap_append l₁ l₂ _

/-- A run of pure call events contains no announcement. -/
theorem announcesOf_calls (l : List Event)
    (h : ∀ e ∈ l, isCall e = true) : announcesOf l = [] := by
  induction l with
  | nil => rfl
  | cons e r ih =>
    have he := h e (List.mem_cons_self e r)
    cases e <;>
      simp_all [announcesOf, isCall, List.filterMap_cons]

/-- Prepending an announcement. -/
theorem announcesOf_cons_announce (n : String) (l : List Event) :
    announcesOf (Event.announce n :: l) = n :: announcesOf l := rfl

/-- A skipped query is announced and produces nothing else: no network
call, no latency record, no summary — the loop `continue`s before
`bench_prom`/`bench_esql` are ever invoked. -/
theorem queryStep_skip (oPr oEs : Nat → HttpOutcome) (q : Query)
    (h : q.skip = true) :
    queryStep oPr oEs q
      = ([Event.announce q.name, Event.skippedNote q.name], false) ∧
    (queryStep oPr oEs q).1.countP isCall = 0 ∧
    (queryStep oPr oEs q).1.countP isSummary = 0 := by
  have h1 : queryStep oPr oEs q
      = ([Event.announce q.name, Event.skippedNote q.name], false) := by
    rw [queryStep, if_pos h]
  refine ⟨h1, ?_, ?_⟩ <;> simp [h1, List.countP_cons, isCall, isSummary]

/-- Every catalogue entry is announced exactly once, skipped or not. -/
theorem queryStep_announces (oPr oEs : Nat → HttpOutcome) (q : Query) :
    announcesOf (queryStep oPr oEs q).1 = [q.name] := by
  have hbp : ∀ e ∈ (bench_prom oPr q).1, isCall e = true :=
    fun e he => benchGo_events_call _ _ _ _ _ _ _ e he
  have hbe : ∀ e ∈ (bench_esql oEs q).1, isCall e = true :=
    fun e he => benchGo_events_call _ _ _ _ _ _ _ e he
  by_cases hs : q.skip = true
  · rw [(queryStep_skip oPr oEs q hs).1]
    rfl
  · rw [queryStep, if_neg hs]
    dsimp only
    split
    · rw [announcesOf_cons_announce, announcesOf_calls _ hbp]
    · split
      · rw [announcesOf_cons_announce, announcesOf_append,
          announcesOf_calls _ hbp, announcesOf_calls _ hbe]
        rfl
      · split
        · rw [announcesOf_cons_announce, announcesOf_append,
            announcesOf_append, announcesOf_calls _ hbp,
            announcesOf_calls _ hbe]
          rfl
        · rw [announcesOf_cons_announce, announcesOf_append,
            announcesOf_calls _ hbp, announcesOf_calls _ hbe]
          rfl

/-- A skipped query contributes exactly its two announcement lines to the
main trace and the run continues with the rest of the catalogue. -/
theorem runMain_skip_cons (oPr oEs : Nat → Nat → HttpOutcome) (q : Query)
    (rest : List Query) (k : Nat) (h : q.skip = true) :
    runMain oPr oEs (q :: rest) k
      = ([Event.announce q.name, Event.skippedNote q.name]
           ++ (runMain oPr oEs rest (k + 1)).1,
         (runMain oPr oEs rest (k + 1)).2) := by
  simp [runMain, (queryStep_skip (oPr k) (oEs k) q h).1]

/-- In a crash-free run the announcements list the catalogue names in
catalogue order. -/
theorem runMain_announces (oPr oEs : Nat → Nat → HttpOutcome) :
    ∀ (qs : List Query) (k : Nat),
      (runMain oPr oEs qs k).2 = false →
      announcesOf (runMain oPr oEs qs k).1 = qs.map Query.name := by
  intro qs
  induction qs with
  | nil => intro k _; rfl
  | cons q rest ih =>
    intro k hc
    have hstep := queryStep_announces (oPr k) (oEs k) q
    rcases hq : queryStep (oPr k) (oEs k) q with ⟨ev, crashed⟩
    rw [hq] at hstep
    cases crashed with
    | true =>
      have : (runMain oPr oEs (q :: rest) k).2 = true := by
        simp [runMain, hq]
      rw [hc] at this
      exact absurd this (by simp)
    | false =>
      have hrun : runMain oPr oEs (q :: rest) k
          = (ev ++ (runMain oPr oEs rest (k + 1)).1,
             (runMain oPr oEs rest (k + 1)).2) := by
        simp [runMain, hq]
      rw [hrun] at hc ⊢
      simp only at hstep
      rw [announcesOf_append, hstep, ih (k + 1) hc]
      rfl

/-- C7 (confirmed): a query definition with the skip flag set is announced
but performs zero network calls against either backend, records zero
latencies and appears in no latency summary (its trace segment is exactly
the two announcement lines, with the rest of the catalogue processed
after it); and the catalogue entries are processed in catalogue order (in
a crash-free run the announcements are exactly the catalogue names in
order). -/
theorem skip_query_no_calls_order :
    (∀ (oPr oEs : Nat → HttpOutcome) (q : Query), q.skip = true →
      queryStep oPr oEs q
          = ([Event.announce q.name, Event.skippedNote q.name], false) ∧
      (queryStep oPr oEs q).1.countP isCall = 0 ∧
      (queryStep oPr oEs q).1.countP isSummary = 0) ∧
    (∀ (oPr oEs : Nat → Nat → HttpOutcome) (q : Query) (rest : List Query)
        (k : Nat), q.skip = true →
      runMain oPr oEs (q :: rest) k
        = ([Event.announce q.name, Event.skippedNote q.name]
             ++ (runMain oPr oEs rest (k + 1)).1,
           (runMain oPr oEs rest (k + 1)).2)) ∧
    (∀ (oPr oEs : Nat → Nat → HttpOutcome) (qs : List Query) (k : Nat),
      (runMain oPr oEs qs k).2 = false →
      announcesOf (runMain oPr oEs qs k).1 = qs.map Query.name) :=
  ⟨queryStep_skip, fun oPr oEs q rest k h => runMain_skip_cons oPr oEs q rest k h,
   runMain_announces⟩

/-- Witness for C7 on the actual catalogue: `Q4` (the skipped entry) is
only announced, and a crash-free run announces Q1–Q4 in order. -/
theorem skip_query_no_calls_order_witness :
    queryStep (fun _ => HttpOutcome.exn) (fun _ => HttpOutcome.exn)
        (QUERIES.get ⟨3, by decide⟩)
      = ([Event.announce "Q4_avg_status_code_4xx_5xx_wildcard",
          Event.skippedNote "Q4_avg_status_code_4xx_5xx_wildcard"], false) ∧
    announcesOf (runMain (fun _ _ => HttpOutcome.resp 200 "" 0)
        (fun _ _ => HttpOutcome.resp 200 "" 0) QUERIES 0).1
      = ["Q1_avg_status_code_1_host", "Q2_avg_status_code_100_hosts_wildcard",
         "Q3_avg_no_filter_sorted", "Q4_avg_status_code_4xx_5xx_wildcard"] := by
  constructor
  · exact ((skip_query_no_calls_order.1 (fun _ => HttpOutcome.exn)
      (fun _ => HttpOutcome.exn) (QUERIES.get ⟨3, by decide⟩)
      (by decide)).1).trans (by decide)
  · exact (skip_query_no_calls_order.2.2 (fun _ _ => HttpOutcome.resp 200 "" 0)
      (fun _ _ => HttpOutcome.resp 200 "" 0) QUERIES 0 (by decide)).trans
      (by decide)

end MetricsBench
